import Mathlib

/-!
Shallow embedding of the Octane validation-and-signing pipeline
(packages/core/src: validateTransaction.ts, validateTransfer.ts,
validateAccountInitialization.ts, actions/signIfTokenFeePaid.ts,
actions/createAccountIfTokenFeePaid.ts).

Public keys are modelled as naturals, signature bytes and serialized
payloads as strings, the shared cache as an association list, and the
Ledger Client (Solana connection) as a finite description of on-chain
state.  JavaScript runtime type errors (property access on undefined)
are modelled by a dedicated error constructor, distinct from the flat
taxonomy of named error strings thrown with `new Error(...)`.
-/

/-- A Solana public key, abstracted to a natural number. -/
abbrev PubKey := Nat

/-- JS error outcomes: a thrown `new Error(msg)` carrying a taxonomy string,
a runtime `TypeError` (property access on `undefined`/`null`), or the
`TokenAccountNotFoundError` thrown by spl-token `getAccount`. -/
inductive JsError where
  | error : String → JsError
  | typeError : JsError
  | tokenAccountNotFound : JsError
deriving DecidableEq, Repr

/-- An account reference in an instruction: pubkey plus the author-declared
role flags (web3.js `AccountMeta`). -/
structure AccountMeta where
  pubkey : PubKey
  isSigner : Bool
  isWritable : Bool
deriving DecidableEq, Repr

/-- Instruction data, abstracting the wire bytes: the two SPL transfer
variants are kept in decoded form (spl-token `decodeInstruction` is an
external library), any other successfully-decoded SPL instruction is
`otherKnown`, bytes that fail SPL decoding are `invalid`, and `raw` holds
literal bytes for non-token-program instructions. -/
inductive InstrData where
  | transfer : Nat → InstrData
  | transferChecked : Nat → Nat → InstrData
  | otherKnown : InstrData
  | invalid : InstrData
  | raw : List Nat → InstrData
deriving DecidableEq, Repr

/-- web3.js `TransactionInstruction`: target program, account references,
opaque data. -/
structure TransactionInstruction where
  programId : PubKey
  keys : List AccountMeta
  data : InstrData
deriving DecidableEq, Repr

/-- web3.js `SignaturePubkeyPair`: a signature slot. The pubkey is optional
to model the `!signature.publicKey` check in validateTransaction; the
signature bytes are `none` until the slot is signed. -/
structure SigPair where
  publicKey : Option PubKey
  signature : Option String
deriving DecidableEq, Repr

/-- web3.js `Transaction`: fee payer, recent blockhash, signature slots,
instructions. -/
structure Transaction where
  feePayer : Option PubKey
  recentBlockhash : Option String
  signatures : List SigPair
  instructions : List TransactionInstruction
deriving DecidableEq, Repr

/-- On-chain state of an SPL token account as returned by spl-token
`getAccount`: mint, owner (authority), balance, frozen flag. -/
structure TokenAccount where
  mint : PubKey
  owner : PubKey
  amount : Nat
  isFrozen : Bool
deriving DecidableEq, Repr

/-- Allow-list entry (core/tokenFee.ts `TokenFee`): accepted mint, custody
token account receiving the fee, required fee amount, decimals. -/
structure TokenFee where
  mint : PubKey
  account : PubKey
  fee : Nat
  decimals : Nat
deriving DecidableEq, Repr

/-- The Ledger Client (Solana `Connection`), reduced to what the pipeline
reads: token-account state for `getAccount`, plain existence for
`getAccountInfo`, and whether `simulateTransaction` reports an error. -/
structure Chain where
  accounts : List (PubKey × TokenAccount)
  existingAccounts : List PubKey
  simulateErr : Bool
deriving DecidableEq, Repr

/-- Values stored in the shared cache: booleans for dedup markers,
integers for `Date.now()` timestamps. -/
inductive CacheVal where
  | b : Bool → CacheVal
  | n : Int → CacheVal
deriving DecidableEq, Repr

/-- The shared cache (cache-manager), as an association list; `set`
prepends, `get` returns the most recent binding. -/
abbrev Cache := List (String × CacheVal)

/-- cache-manager `get`. -/
def Cache.get (c : Cache) (k : String) : Option CacheVal :=
  (c.find? (fun e => decide (e.1 = k))).map (fun e => e.2)

/-- cache-manager `set`. -/
def Cache.set (c : Cache) (k : String) (v : CacheVal) : Cache :=
  (k, v) :: c

/-- Decidable equality for Except outcomes, used to evaluate concrete runs. -/
instance {e a : Type} [DecidableEq e] [DecidableEq a] : DecidableEq (Except e a) := fun x y =>
  match x, y with
  | .ok u, .ok v => decidable_of_iff (u = v) (by simp)
  | .error u, .error v => decidable_of_iff (u = v) (by simp)
  | .ok _, .error _ => isFalse (fun h => Except.noConfusion h)
  | .error _, .ok _ => isFalse (fun h => Except.noConfusion h)

/-- JS truthiness of `await cache.get(key)`: absent (`undefined`), `false`
and `0` are falsy. -/
def truthy : Option CacheVal → Bool
  | none => false
  | some (.b v) => v
  | some (.n t) => t ≠ 0

/-- JS truthiness of a cache value itself. -/
def truthyVal : CacheVal → Bool
  | .b v => v
  | .n t => t ≠ 0

/-- JS numeric coercion of a cache value (`Number(true) = 1`). -/
def cacheValNum : CacheVal → Int
  | .b v => if v then 1 else 0
  | .n t => t

/-- SPL token program id (abstract constant). -/
def tokenProgramId : PubKey := 901

/-- Associated token account program id (abstract constant). -/
def ataProgramId : PubKey := 902

/-- System program id (abstract constant). -/
def systemProgramId : PubKey := 903

/-- JS template interpolation of `transaction.recentBlockhash`: an absent
blockhash prints as the string undefined. -/
def blockhashText (tx : Transaction) : String :=
  match tx.recentBlockhash with
  | some h => h
  | none => "undefined"

/-- JS truthiness of `transaction.recentBlockhash` (`undefined`, `null`
and the empty string are falsy). -/
def bhPresent (tx : Transaction) : Bool :=
  match tx.recentBlockhash with
  | some h => h ≠ ""
  | none => false

/-- Encoding of an account reference, used by the message fingerprint. -/
def encodeMeta (m : AccountMeta) : String :=
  toString m.pubkey ++ (if m.isSigner then "s" else "n") ++ (if m.isWritable then "w" else "n")

/-- Encoding of instruction data, used by the message fingerprint. -/
def encodeData : InstrData → String
  | .transfer a => "t" ++ toString a
  | .transferChecked a d => "c" ++ toString a ++ "." ++ toString d
  | .otherKnown => "o"
  | .invalid => "x"
  | .raw bs => "r" ++ String.intercalate "." (bs.map toString)

/-- Encoding of one instruction, used by the message fingerprint. -/
def encodeInstr (ix : TransactionInstruction) : String :=
  "I" ++ toString ix.programId ++ ":" ++ String.intercalate "," (ix.keys.map encodeMeta) ++ ":" ++ encodeData ix.data

/-- Abstract model of `base58.encode(sha256(transaction.serializeMessage()))`:
a deterministic text fingerprint of the transaction message (fee payer,
blockhash, signer pubkeys in slot order, instructions), independent of the
signature bytes, which the serialized message does not contain. -/
def msgFingerprint (tx : Transaction) : String :=
  "M" ++ (match tx.feePayer with | none => "N" | some p => toString p)
    ++ ";" ++ blockhashText tx
    ++ ";" ++ String.intercalate "," (tx.signatures.map (fun s => match s.publicKey with | none => "N" | some p => toString p))
    ++ ";" ++ String.intercalate "." (tx.instructions.map encodeInstr)

/-- Abstract model of the ed25519 signature the custody keypair produces
over a message fingerprint. -/
def mkSig (k : PubKey) (msg : String) : String :=
  "sig." ++ toString k ++ "." ++ msg

/-- web3.js `addSignature` as used by `partialSign`: set the signature of
the first slot whose pubkey equals the signer. -/
def signFirstMatching : List SigPair → PubKey → String → List SigPair
  | [], _, _ => []
  | s :: rest, k, sg =>
    if s.publicKey = some k then { s with signature := some sg } :: rest
    else s :: signFirstMatching rest k sg

/-- The secondary-signature loop of validateTransaction.ts: the first slot
with a falsy `publicKey` yields `missing public key`, the first with a
falsy `signature` yields `missing signature`. -/
def checkSecondary : List SigPair → Option JsError
  | [] => none
  | s :: rest =>
    if s.publicKey = none then some (.error "missing public key")
    else if s.signature = none then some (.error "missing signature")
    else checkSecondary rest

/-- core/validateTransaction.ts `validateTransaction`: the envelope checks,
then `partialSign` + `serialize`.  The returned transaction is the
(possibly mutated) transaction object, making the in-place mutation of the
JS code explicit; the string is the base58 custody signature.  The
`lamportsPerSignature` parameter is received but never read (the fee-
ceiling check is absent from the function body). -/
def validateTransactionS (tx : Transaction) (k : PubKey) (maxSignatures : Nat)
    (lamportsPerSignature : Nat) : Transaction × Except JsError String :=
  if tx.feePayer ≠ some k then (tx, .error (.error "invalid fee payer"))
  else if !bhPresent tx then (tx, .error (.error "missing recent blockhash"))
  else
    match tx.signatures with
    | [] => (tx, .error (.error "no signatures"))
    | s0 :: rest =>
      if maxSignatures < (s0 :: rest).length then (tx, .error (.error "too many signatures"))
      else
        match s0.publicKey with
        | none => (tx, .error .typeError)
        | some p =>
          if p ≠ k then (tx, .error (.error "invalid fee payer pubkey"))
          else if s0.signature ≠ none then (tx, .error (.error "invalid fee payer signature"))
          else
            match checkSecondary rest with
            | some e => (tx, .error e)
            | none =>
              let sg := mkSig k (msgFingerprint tx)
              ({ tx with signatures := signFirstMatching tx.signatures k sg }, .ok sg)

/-- The inner key loop of `validateInstructions`
(actions/createAccountIfTokenFeePaid.ts): first account reference that is
writable or a signer and equals the fee payer. -/
def feePayerHitKeys (k : PubKey) : List AccountMeta → Option JsError
  | [] => none
  | m :: rest =>
    if (m.isWritable || m.isSigner) && m.pubkey = k then some (.error "invalid account")
    else feePayerHitKeys k rest

/-- The instruction loop of `validateInstructions`. -/
def validateInstructionsGo (k : PubKey) : List TransactionInstruction → Except JsError Unit
  | [] => .ok ()
  | ix :: rest =>
    match feePayerHitKeys k ix.keys with
    | some e => .error e
    | none => validateInstructionsGo k rest

/-- actions/createAccountIfTokenFeePaid.ts `validateInstructions`: reject
any transaction whose instructions reference the fee payer as writable or
as a signer. -/
def validateInstructions (tx : Transaction) (k : PubKey) : Except JsError Unit :=
  validateInstructionsGo k tx.instructions

/-- Decoded SPL transfer (spl-token `DecodedTransferInstruction` /
`DecodedTransferCheckedInstruction`): the three common account references,
the amount, and for the checked variant the mint reference and decimals. -/
structure TransferParts where
  source : AccountMeta
  destination : AccountMeta
  owner : AccountMeta
  amount : Nat
  checked : Option (AccountMeta × Nat)
deriving DecidableEq, Repr

/-- `transaction.instructions.find(ix => ix.programId.equals(TOKEN_PROGRAM_ID))`. -/
def findTokenInstruction (tx : Transaction) : Option TransactionInstruction :=
  tx.instructions.find? (fun ix => ix.programId = tokenProgramId)

/-- spl-token `decodeInstruction` restricted to what validateTransfer.ts
consumes: `ok (some parts)` when the instruction decodes as Transfer or
TransferChecked (keys in spl-token order: source, [mint,] destination,
owner), `ok none` when it decodes as another known SPL instruction, and a
thrown decode error otherwise. -/
def decodeTokenInstruction (ix : TransactionInstruction) : Except JsError (Option TransferParts) :=
  match ix.data with
  | .transfer a =>
    match ix.keys with
    | s :: d :: o :: _ => .ok (some ⟨s, d, o, a, none⟩)
    | _ => .error (.error "TokenInvalidInstructionKeysError")
  | .transferChecked a dd =>
    match ix.keys with
    | s :: mm :: d :: o :: _ => .ok (some ⟨s, d, o, a, some (mm, dd)⟩)
    | _ => .error (.error "TokenInvalidInstructionKeysError")
  | .otherKnown => .ok none
  | .invalid => .error (.error "TokenInvalidInstructionTypeError")
  | .raw _ => .error (.error "TokenInvalidInstructionTypeError")

/-- spl-token `getAccount` against the modelled chain. -/
def getAccount (chain : Chain) (p : PubKey) : Option TokenAccount :=
  (chain.accounts.find? (fun e => decide (e.1 = p))).map (fun e => e.2)

/-- `allowedTokens.find(token => token.mint.equals(account.mint))`. -/
def findFeeToken (allowed : List TokenFee) (mint : PubKey) : Option TokenFee :=
  allowed.find? (fun t => t.mint = mint)

/-- The source-account section of validateTransfer.ts: `getAccount`
(throwing when absent), recorded owner, frozen flag, balance. -/
def sourceChecks (chain : Chain) (parts : TransferParts) : Except JsError TokenAccount :=
  match getAccount chain parts.source.pubkey with
  | none => .error .tokenAccountNotFound
  | some acct =>
    if acct.owner ≠ parts.owner.pubkey then .error (.error "source invalid owner")
    else if acct.isFrozen then .error (.error "source frozen")
    else if acct.amount < parts.amount then .error (.error "source insufficient balance")
    else .ok acct

/-- The role-flag section of validateTransfer.ts after the amount check:
source / destination flags, the owner compared against
`transaction.signatures[1]` (a runtime TypeError when no second slot
exists or its pubkey is absent), and the TransferChecked extras. -/
def roleChecks (tx : Transaction) (parts : TransferParts) (token : TokenFee) :
    Except JsError TransferParts :=
  if parts.source.isSigner then .error (.error "source is signer")
  else if parts.destination.pubkey ≠ token.account then .error (.error "invalid destination")
  else if !parts.destination.isWritable then .error (.error "destination not writable")
  else if parts.destination.isSigner then .error (.error "destination is signer")
  else
    match tx.signatures.get? 1 with
    | none => .error .typeError
    | some s1 =>
      match s1.publicKey with
      | none => .error .typeError
      | some p1 =>
        if parts.owner.pubkey ≠ p1 then .error (.error "owner missing signature")
        else if parts.owner.isWritable then .error (.error "owner is writable")
        else if !parts.owner.isSigner then .error (.error "owner not signer")
        else
          match parts.checked with
          | none => .ok parts
          | some (mm, dd) =>
            if dd ≠ token.decimals then .error (.error "invalid decimals")
            else if mm.pubkey ≠ token.mint then .error (.error "invalid mint")
            else if mm.isWritable then .error (.error "mint is writable")
            else if mm.isSigner then .error (.error "mint is signer")
            else .ok parts

/-- core/validateTransfer.ts after the decode step, in source order:
source-account state, allow-list match, fee amount, then the role checks. -/
def validateTransferParts (chain : Chain) (tx : Transaction) (allowed : List TokenFee)
    (parts : TransferParts) : Except JsError TransferParts :=
  match sourceChecks chain parts with
  | .error e => .error e
  | .ok acct =>
    match findFeeToken allowed acct.mint with
    | none => .error (.error "invalid token")
    | some token =>
      if parts.amount < token.fee then .error (.error "invalid amount")
      else roleChecks tx parts token

/-- validateTransfer.ts from the decode step onward, for a chosen token-
program instruction. -/
def validateTransferOnIx (chain : Chain) (tx : Transaction) (allowed : List TokenFee)
    (ix : TransactionInstruction) : Except JsError TransferParts :=
  match decodeTokenInstruction ix with
  | .error e => .error e
  | .ok none => .error (.error "invalid instruction")
  | .ok (some parts) => validateTransferParts chain tx allowed parts

/-- core/validateTransfer.ts `validateTransfer`: find the first token-
program instruction, decode it, then run the transfer checks. -/
def validateTransfer (chain : Chain) (tx : Transaction) (allowed : List TokenFee) :
    Except JsError TransferParts :=
  match findTokenInstruction tx with
  | none => .error (.error "missing token instruction")
  | some ix => validateTransferOnIx chain tx allowed ix

/-- Abstract model of spl-token `getAssociatedTokenAddress(mint, owner)`:
a deterministic derived address for the (mint, owner) pair. -/
def ataAddr (mint owner : PubKey) : PubKey :=
  Nat.pair mint owner

/-- spl-token `createAssociatedTokenAccountInstruction(payer, ata, owner,
mint)`: the canonical reference instruction (payer signer+writable, derived
account writable, then owner, mint, system program, token program, with
empty data). -/
def refAtaInstruction (payer ata owner mint : PubKey) : TransactionInstruction :=
  { programId := ataProgramId,
    keys := [⟨payer, true, true⟩, ⟨ata, false, true⟩, ⟨owner, false, false⟩,
             ⟨mint, false, false⟩, ⟨systemProgramId, false, false⟩,
             ⟨tokenProgramId, false, false⟩],
    data := .raw [] }

/-- Modelled from the spec: `areInstructionsEqual` lives in
core/instructions.ts, which is not among the provided sources; per the
spec the actual instruction must be byte-for-byte equal to the reference
in program id, account list (including role flags and order), and data. -/
def areInstructionsEqual (a b : TransactionInstruction) : Bool :=
  decide (a = b)

/-- The `account/<blockhash>_<associatedTokenAddress>` cache key. -/
def acctInitKey (tx : Transaction) (ata : PubKey) : String :=
  "account/" ++ (blockhashText tx ++ "_" ++ toString ata)

/-- core/validateAccountInitialization.ts
`validateAccountInitializationInstructions`.  The initial
`Transaction.from(originalTransaction.serialize(...))` round trip is
modelled as the identity copy.  Returns the updated cache together with
the outcome; the only cache write is the final mark-as-seen `set`. -/
def validateAccountInitializationInstructions (chain : Chain) (tx : Transaction)
    (k : PubKey) (cache : Cache) : Cache × Except JsError Unit :=
  if tx.instructions.length ≠ 2 then
    (cache, .error (.error "transaction should contain 2 instructions: fee payment, account init"))
  else
    match tx.instructions.get? 1 with
    | none => (cache, .error .typeError)
    | some instr =>
      if instr.programId ≠ ataProgramId then
        (cache, .error (.error "account instruction should call associated token program"))
      else
        match instr.keys.get? 2, instr.keys.get? 3 with
        | some ownerMeta, some mintMeta =>
          let ata := ataAddr mintMeta.pubkey ownerMeta.pubkey
          if chain.existingAccounts.contains ata then
            (cache, .error (.error "account already exists"))
          else if !areInstructionsEqual (refAtaInstruction k ata ownerMeta.pubkey mintMeta.pubkey) instr then
            (cache, .error (.error "unable to match associated account instruction"))
          else
            let ckey := acctInitKey tx ata
            if truthy (Cache.get cache ckey) then
              (cache, .error (.error "duplicate account within same recent blockhash"))
            else (Cache.set cache ckey (.b true), .ok ())
        | _, _ => (cache, .error .typeError)

/-- The `transaction/<base58(sha256(serializedMessage))>` dedup key. -/
def dedupKey (tx : Transaction) : String :=
  "transaction/" ++ msgFingerprint tx

/-- The `transfer/lastSignature/<source>` cooldown key. -/
def transferLockKey (source : PubKey) : String :=
  "transfer/lastSignature/" ++ toString source

/-- The `createAccount/lastSignature/<source>` cooldown key. -/
def createAccountLockKey (source : PubKey) : String :=
  "createAccount/lastSignature/" ++ toString source

/-- The lockout test `lastSignature && Date.now() - lastSignature <
sameSourceTimeout`. -/
def lockHit (c : Cache) (key : String) (now timeout : Int) : Bool :=
  match Cache.get c key with
  | none => false
  | some v => truthyVal v && decide (now - cacheValNum v < timeout)

/-- actions/signIfTokenFeePaid.ts `signWithTokenFee`: dedup key (written
before any validation), envelope validation + signing, instruction
security, transfer validation, per-source lockout, simulation.  `now`
models `Date.now()`; the JS default of `sameSourceTimeout` is 5000 ms.
Returns the final cache alongside the outcome (cache writes persist on
failure). -/
def signWithTokenFee (chain : Chain) (tx : Transaction) (k : PubKey)
    (maxSignatures lamportsPerSignature : Nat) (allowed : List TokenFee)
    (cache : Cache) (now sameSourceTimeout : Int) : Cache × Except JsError String :=
  let dk := dedupKey tx
  if truthy (Cache.get cache dk) then (cache, .error (.error "duplicate transaction"))
  else
    let c1 := Cache.set cache dk (.b true)
    match validateTransactionS tx k maxSignatures lamportsPerSignature with
    | (_, .error e) => (c1, .error e)
    | (tx1, .ok sg) =>
      match validateInstructions tx1 k with
      | .error e => (c1, .error e)
      | .ok _ =>
        match validateTransfer chain tx1 allowed with
        | .error e => (c1, .error e)
        | .ok parts =>
          let lk := transferLockKey parts.source.pubkey
          if lockHit c1 lk now sameSourceTimeout then (c1, .error (.error "duplicate transfer"))
          else
            let c2 := Cache.set c1 lk (.n now)
            if chain.simulateErr then (c2, .error (.error "Simulation error"))
            else (c2, .ok sg)

/-- actions/createAccountIfTokenFeePaid.ts `createAccountIfTokenFeePaid`:
like `signWithTokenFee` but with account-initialization validation (which
itself can write a cache key) in place of instruction security, and the
`createAccount/` cooldown key family. -/
def createAccountIfTokenFeePaid (chain : Chain) (tx : Transaction) (k : PubKey)
    (maxSignatures lamportsPerSignature : Nat) (allowed : List TokenFee)
    (cache : Cache) (now sameSourceTimeout : Int) : Cache × Except JsError String :=
  let dk := dedupKey tx
  if truthy (Cache.get cache dk) then (cache, .error (.error "duplicate transaction"))
  else
    let c1 := Cache.set cache dk (.b true)
    match validateTransactionS tx k maxSignatures lamportsPerSignature with
    | (_, .error e) => (c1, .error e)
    | (tx1, .ok sg) =>
      match validateAccountInitializationInstructions chain tx1 k c1 with
      | (c2, .error e) => (c2, .error e)
      | (c2, .ok _) =>
        match validateTransfer chain tx1 allowed with
        | .error e => (c2, .error e)
        | .ok parts =>
          let lk := createAccountLockKey parts.source.pubkey
          if lockHit c2 lk now sameSourceTimeout then (c2, .error (.error "duplicate transfer"))
          else
            let c3 := Cache.set c2 lk (.n now)
            if chain.simulateErr then (c3, .error (.error "Simulation error"))
            else (c3, .ok sg)

/-! ### Concrete fixtures used by witnesses and counterexamples -/

/-- The custody (fee payer) public key used in concrete scenarios. -/
def custodyK : PubKey := 1

/-- An allow-list entry: mint 4, custody token account 5, fee 10, 6 decimals. -/
def feeEntryE : TokenFee := ⟨4, 5, 10, 6⟩

/-- The allow-list used in concrete scenarios. -/
def allowedE : List TokenFee := [feeEntryE]

/-- A well-formed fee transfer instruction: source 3, destination 5
(the custody token account), owner 2 as signer, amount 10. -/
def transferIxE : TransactionInstruction :=
  { programId := tokenProgramId,
    keys := [⟨3, false, true⟩, ⟨5, false, true⟩, ⟨2, true, false⟩],
    data := .transfer 10 }

/-- A transaction passing the whole signWithTokenFee pipeline. -/
def txE : Transaction :=
  { feePayer := some 1, recentBlockhash := some "bh",
    signatures := [⟨some 1, none⟩, ⟨some 2, some "osig"⟩],
    instructions := [transferIxE] }

/-- Chain state for the concrete scenarios: source token account 3 holds
100 units of mint 4, owned by 2; simulation succeeds. -/
def chainE : Chain :=
  { accounts := [(3, ⟨4, 2, 100, false⟩)], existingAccounts := [], simulateErr := false }

/-- A transaction whose only instruction references the custody key as
writable but not as a signer. -/
def txCexW : Transaction :=
  { feePayer := some 1, recentBlockhash := some "bh",
    signatures := [⟨some 1, none⟩],
    instructions := [{ programId := 77, keys := [⟨1, false, true⟩], data := .raw [] }] }

/-- A transaction whose only instruction references the custody key as a
signer but not as writable. -/
def txCexS : Transaction :=
  { feePayer := some 1, recentBlockhash := some "bh",
    signatures := [⟨some 1, none⟩],
    instructions := [{ programId := 77, keys := [⟨1, true, false⟩], data := .raw [] }] }

/-- The canonical account-creation instruction for the concrete scenario:
payer 1, derived address for mint 4 and owner 2. -/
def ataIxE : TransactionInstruction :=
  refAtaInstruction custodyK (ataAddr 4 2) 2 4

/-- An account-creation transaction: fee transfer then the canonical
associated-token-account instruction. -/
def txAcctE : Transaction :=
  { feePayer := some 1, recentBlockhash := some "bh",
    signatures := [⟨some 1, none⟩, ⟨some 2, some "osig"⟩],
    instructions := [transferIxE, ataIxE] }

/-- Chain state in which the derived associated token account already
exists on-chain. -/
def chainExistE : Chain :=
  { accounts := [(3, ⟨4, 2, 100, false⟩)], existingAccounts := [ataAddr 4 2],
    simulateErr := false }

/-! ### Helper lemmas -/

theorem feePayerHitKeys_none_iff (k : PubKey) (l : List AccountMeta) :
    feePayerHitKeys k l = none ↔
      ∀ m ∈ l, (m.isWritable = true ∨ m.isSigner = true) → m.pubkey ≠ k := by
  induction l with
  | nil => simp [feePayerHitKeys]
  | cons m rest ih =>
    simp only [feePayerHitKeys]
    split
    · next h =>
      simp only [Bool.and_eq_true, Bool.or_eq_true, decide_eq_true_eq] at h
      simp only [List.mem_cons]
      constructor
      · intro hc; exact absurd hc (by simp)
      · intro hall
        exact absurd h.2 (hall m (Or.inl rfl) h.1)
    · next h =>
      simp only [Bool.and_eq_true, Bool.or_eq_true, decide_eq_true_eq, not_and] at h
      rw [ih]
      constructor
      · intro hall m' hm' hrole
        rw [List.mem_cons] at hm'
        rcases hm' with hm' | hm'
        · subst hm'; exact h hrole
        · exact hall m' hm' hrole
      · intro hall m' hm' hrole
        exact hall m' (List.mem_cons_of_mem _ hm') hrole

theorem feePayerHitKeys_some_iff (k : PubKey) (l : List AccountMeta) (e : JsError) :
    feePayerHitKeys k l = some e ↔
      e = JsError.error "invalid account" ∧
        ∃ m ∈ l, (m.isWritable = true ∨ m.isSigner = true) ∧ m.pubkey = k := by
  induction l with
  | nil => simp [feePayerHitKeys]
  | cons m rest ih =>
    simp only [feePayerHitKeys]
    split
    · next h =>
      simp only [Bool.and_eq_true, Bool.or_eq_true, decide_eq_true_eq] at h
      simp only [Option.some.injEq, List.mem_cons]
      constructor
      · intro he; exact ⟨he.symm, m, Or.inl rfl, h.1, h.2⟩
      · rintro ⟨he, _⟩; exact he.symm
    · next h =>
      simp only [Bool.and_eq_true, Bool.or_eq_true, decide_eq_true_eq, not_and] at h
      rw [ih]
      simp only [List.mem_cons]
      constructor
      · rintro ⟨he, m', hm', hrole, hpk⟩
        exact ⟨he, m', Or.inr hm', hrole, hpk⟩
      · rintro ⟨he, m', hm', hrole, hpk⟩
        rcases hm' with hm' | hm'
        · subst hm'; exact absurd hpk (h hrole)
        · exact ⟨he, m', hm', hrole, hpk⟩

theorem validateInstructionsGo_ok_iff (k : PubKey) (l : List TransactionInstruction) :
    validateInstructionsGo k l = .ok () ↔
      ∀ ix ∈ l, ∀ m ∈ ix.keys, (m.isWritable = true ∨ m.isSigner = true) → m.pubkey ≠ k := by
  induction l with
  | nil => simp [validateInstructionsGo]
  | cons ix rest ih =>
    simp only [validateInstructionsGo]
    cases hk : feePayerHitKeys k ix.keys with
    | none =>
      rw [feePayerHitKeys_none_iff] at hk
      rw [ih]
      simp only [List.mem_cons]
      constructor
      · intro hall ix' hix' m hm hrole
        rcases hix' with hix' | hix'
        · subst hix'; exact hk m hm hrole
        · exact hall ix' hix' m hm hrole
      · intro hall ix' hix' m hm hrole
        exact hall ix' (Or.inr hix') m hm hrole
    | some e =>
      rw [feePayerHitKeys_some_iff] at hk
      obtain ⟨_, m, hm, hrole, hpk⟩ := hk
      simp only [List.mem_cons]
      constructor
      · intro hc; exact absurd hc (by simp)
      · intro hall
        exact absurd hpk (hall ix (Or.inl rfl) m hm hrole)

theorem validateInstructionsGo_error_iff (k : PubKey) (l : List TransactionInstruction)
    (e : JsError) :
    validateInstructionsGo k l = .error e ↔
      e = JsError.error "invalid account" ∧
        ∃ ix ∈ l, ∃ m ∈ ix.keys, (m.isWritable = true ∨ m.isSigner = true) ∧ m.pubkey = k := by
  induction l with
  | nil => simp [validateInstructionsGo]
  | cons ix rest ih =>
    simp only [validateInstructionsGo]
    cases hk : feePayerHitKeys k ix.keys with
    | none =>
      rw [feePayerHitKeys_none_iff] at hk
      rw [ih]
      simp only [List.mem_cons]
      constructor
      · rintro ⟨he, ix', hix', m, hm, hrole, hpk⟩
        exact ⟨he, ix', Or.inr hix', m, hm, hrole, hpk⟩
      · rintro ⟨he, ix', hix', m, hm, hrole, hpk⟩
        rcases hix' with hix' | hix'
        · subst hix'; exact absurd hpk (hk m hm hrole)
        · exact ⟨he, ix', hix', m, hm, hrole, hpk⟩
    | some e' =>
      rw [feePayerHitKeys_some_iff] at hk
      obtain ⟨he', m, hm, hrole, hpk⟩ := hk
      simp only [Except.error.injEq, List.mem_cons]
      constructor
      · intro he; subst he; exact ⟨he', ix, Or.inl rfl, m, hm, hrole, hpk⟩
      · rintro ⟨he, _⟩; rw [he, ← he']

/-! ### Claims -/

/-- C1: validateInstructions fails with the error invalid account exactly
when the custody key appears with the writable flag or the signer flag set
in some account reference of some instruction, regardless of instruction
or position; otherwise it completes without error. -/
theorem claim1_validateInstructions_invalid_account (tx : Transaction) (k : PubKey) :
    (validateInstructions tx k = .error (JsError.error "invalid account") ↔
      ∃ ix ∈ tx.instructions, ∃ m ∈ ix.keys,
        (m.isWritable = true ∨ m.isSigner = true) ∧ m.pubkey = k)
    ∧ (validateInstructions tx k = .ok () ↔
      ∀ ix ∈ tx.instructions, ∀ m ∈ ix.keys,
        (m.isWritable = true ∨ m.isSigner = true) → m.pubkey ≠ k) := by
  constructor
  · rw [validateInstructions, validateInstructionsGo_error_iff]
    simp
  · rw [validateInstructions, validateInstructionsGo_ok_iff]

/-- C1 witness: on the concrete drain-attempt transaction the validator
rejects with invalid account, and on the clean transaction it succeeds. -/
theorem claim1_validateInstructions_invalid_account_witness :
    validateInstructions txCexW custodyK = .error (JsError.error "invalid account") ∧
      validateInstructions txE custodyK = .ok () := by
  constructor
  · exact (claim1_validateInstructions_invalid_account txCexW custodyK).1.mpr
      ⟨{ programId := 77, keys := [⟨1, false, true⟩], data := .raw [] }, by decide, ⟨1, false, true⟩, by decide, by decide, by decide⟩
  · exact (claim1_validateInstructions_invalid_account txE custodyK).2.mpr (by decide)

/-- C8 counterexample: the writable-role violation and the signer-role
violation raise identical errors, so the raised error does not identify
which role triggered the rejection. -/
theorem claim8_counterexample_same_error :
    validateInstructions txCexW custodyK = validateInstructions txCexS custodyK ∧
      validateInstructions txCexW custodyK = .error (JsError.error "invalid account") := by
  decide

/-- C8 amended: when validateInstructions rejects a transaction, the raised
error is always the single error invalid account, for the writable case and
the signer case alike; the offending role is named only in the diagnostic
log message, not in the raised error. -/
theorem claim8_amended_error_constant (tx : Transaction) (k : PubKey) (e : JsError)
    (h : validateInstructions tx k = .error e) : e = JsError.error "invalid account" := by
  rw [validateInstructions, validateInstructionsGo_error_iff] at h
  exact h.1

/-- C8 amended witness: applied at the concrete signer-role violation. -/
theorem claim8_amended_error_constant_witness :
    validateInstructions txCexS custodyK = .error (JsError.error "invalid account") ∧
      JsError.error "invalid account" = JsError.error "invalid account" :=
  ⟨by decide, claim8_amended_error_constant txCexS custodyK (JsError.error "invalid account") (by decide)⟩

theorem decodeTokenInstruction_error_char (ix : TransactionInstruction) (e : JsError)
    (h : decodeTokenInstruction ix = .error e) :
    e = JsError.error "TokenInvalidInstructionKeysError" ∨
      e = JsError.error "TokenInvalidInstructionTypeError" := by
  unfold decodeTokenInstruction at h
  repeat' split at h
  all_goals first
    | (cases h; decide)
    | (cases h)
    | (injection h with h2; exact Or.inl h2.symm)
    | (injection h with h2; exact Or.inr h2.symm)

theorem sourceChecks_error_char (chain : Chain) (parts : TransferParts) (e : JsError)
    (h : sourceChecks chain parts = .error e) :
    e = JsError.tokenAccountNotFound ∨
      ∃ s, e = JsError.error s ∧
        s ∈ ["source invalid owner", "source frozen", "source insufficient balance"] := by
  unfold sourceChecks at h
  repeat' split at h
  all_goals first
    | (cases h; exact Or.inl rfl)
    | (cases h; exact Or.inr ⟨_, rfl, by decide⟩)
    | (cases h)
    | (injection h with h2; exact Or.inl h2.symm)
    | (injection h with h2; exact Or.inr ⟨_, h2.symm, by decide⟩)

set_option maxHeartbeats 1600000 in
theorem roleChecks_error_string (tx : Transaction) (parts : TransferParts) (token : TokenFee)
    (s : String) (h : roleChecks tx parts token = .error (JsError.error s)) :
    s ∈ ["source is signer", "invalid destination", "destination not writable",
         "destination is signer", "owner missing signature", "owner is writable",
         "owner not signer", "invalid decimals", "invalid mint", "mint is writable",
         "mint is signer"] := by
  unfold roleChecks at h
  repeat' split at h
  all_goals first
    | (cases h; decide)
    | (cases h)
    | (injection h with h2; injection h2 with h3; rw [← h3]; decide)

theorem roleChecks_ne_invalid_amount (tx : Transaction) (parts : TransferParts)
    (token : TokenFee) :
    roleChecks tx parts token ≠ .error (JsError.error "invalid amount") := by
  intro hc
  have := roleChecks_error_string tx parts token "invalid amount" hc
  exact absurd this (by decide)

theorem validateTransferParts_error_string (chain : Chain) (tx : Transaction)
    (allowed : List TokenFee) (parts : TransferParts) (s : String)
    (h : validateTransferParts chain tx allowed parts = .error (JsError.error s)) :
    s ∈ ["source invalid owner", "source frozen", "source insufficient balance",
         "invalid token", "invalid amount", "source is signer", "invalid destination",
         "destination not writable", "destination is signer", "owner missing signature",
         "owner is writable", "owner not signer", "invalid decimals", "invalid mint",
         "mint is writable", "mint is signer"] := by
  unfold validateTransferParts at h
  split at h
  · next e heq =>
    injection h with h2
    rcases sourceChecks_error_char chain parts e heq with h3 | ⟨s2, hs2, hmem⟩
    · rw [h2] at h3; cases h3
    · rw [h2] at hs2
      injection hs2 with h4
      rw [h4]
      have hsub2 : ∀ x ∈ ["source invalid owner", "source frozen",
          "source insufficient balance"],
          x ∈ ["source invalid owner", "source frozen", "source insufficient balance",
            "invalid token", "invalid amount", "source is signer", "invalid destination",
            "destination not writable", "destination is signer", "owner missing signature",
            "owner is writable", "owner not signer", "invalid decimals", "invalid mint",
            "mint is writable", "mint is signer"] := by decide
      exact hsub2 s2 hmem
  · next acct heq =>
    split at h
    · injection h with h2; injection h2 with h3; rw [← h3]; decide
    · next token htok =>
      split at h
      · injection h with h2; injection h2 with h3; rw [← h3]; decide
      · have := roleChecks_error_string tx parts token s h
        have hsub : ∀ x ∈ ["source is signer", "invalid destination",
            "destination not writable", "destination is signer", "owner missing signature",
            "owner is writable", "owner not signer", "invalid decimals", "invalid mint",
            "mint is writable", "mint is signer"],
            x ∈ ["source invalid owner", "source frozen", "source insufficient balance",
              "invalid token", "invalid amount", "source is signer", "invalid destination",
              "destination not writable", "destination is signer", "owner missing signature",
              "owner is writable", "owner not signer", "invalid decimals", "invalid mint",
              "mint is writable", "mint is signer"] := by decide
        exact hsub s this

theorem validateTransferOnIx_ne_missing (chain : Chain) (tx : Transaction)
    (allowed : List TokenFee) (ix : TransactionInstruction) :
    validateTransferOnIx chain tx allowed ix ≠ .error (JsError.error "missing token instruction") := by
  intro hc
  unfold validateTransferOnIx at hc
  split at hc
  · next e heq =>
    injection hc with h2
    rcases decodeTokenInstruction_error_char ix e heq with h3 | h3 <;>
      (rw [h2] at h3; exact absurd h3 (by decide))
  · next heq => exact absurd hc (by decide)
  · next parts heq =>
    have := validateTransferParts_error_string chain tx allowed parts
      "missing token instruction" hc
    exact absurd this (by decide)

/-- C10: the per-signature fee ceiling has no effect: validateTransaction,
signWithTokenFee and createAccountIfTokenFeePaid produce identical
outcomes for any two values of the lamportsPerSignature parameter, because
no fee-ceiling check is performed. -/
theorem claim10_lamports_per_signature_unused (chain : Chain) (tx : Transaction)
    (k : PubKey) (m l1 l2 : Nat) (allowed : List TokenFee) (c : Cache) (now tmo : Int) :
    validateTransactionS tx k m l1 = validateTransactionS tx k m l2 ∧
      signWithTokenFee chain tx k m l1 allowed c now tmo =
        signWithTokenFee chain tx k m l2 allowed c now tmo ∧
      createAccountIfTokenFeePaid chain tx k m l1 allowed c now tmo =
        createAccountIfTokenFeePaid chain tx k m l2 allowed c now tmo :=
  ⟨rfl, rfl, rfl⟩

/-- C7: validateTransfer fails with missing token instruction exactly when
no instruction targets the token program; when token-program instructions
exist, the first one in instruction order is the one selected for decoding
and validation. -/
theorem claim7_missing_token_instruction (chain : Chain) (tx : Transaction)
    (allowed : List TokenFee) :
    ((∀ ix ∈ tx.instructions, ix.programId ≠ tokenProgramId) ↔
      validateTransfer chain tx allowed = .error (JsError.error "missing token instruction"))
    ∧ (∀ pre ix post, tx.instructions = pre ++ ix :: post →
        ix.programId = tokenProgramId →
        (∀ j ∈ pre, j.programId ≠ tokenProgramId) →
        findTokenInstruction tx = some ix ∧
          validateTransfer chain tx allowed = validateTransferOnIx chain tx allowed ix) := by
  constructor
  · constructor
    · intro hall
      have hnone : findTokenInstruction tx = none := by
        rw [findTokenInstruction, List.find?_eq_none]
        intro ix hix
        simp only [decide_eq_true_eq]
        exact hall ix hix
      simp only [validateTransfer, hnone]
    · intro h ix hix
      cases hfind : findTokenInstruction tx with
      | none =>
        rw [findTokenInstruction, List.find?_eq_none] at hfind
        have := hfind ix hix
        simpa using this
      | some ix0 =>
        simp only [validateTransfer, hfind] at h
        exact absurd h (validateTransferOnIx_ne_missing chain tx allowed ix0)
  · intro pre ix post hsplit hprog hpre
    have hfind : findTokenInstruction tx = some ix := by
      rw [findTokenInstruction, hsplit, List.find?_append]
      have hpre' : (pre.find? (fun j => decide (j.programId = tokenProgramId))) = none := by
        rw [List.find?_eq_none]
        intro j hj
        simp only [decide_eq_true_eq]
        exact hpre j hj
      rw [hpre']
      simp [List.find?_cons, hprog]
    exact ⟨hfind, by simp only [validateTransfer, hfind]⟩

/-- C3: with the transfer decoded and the allow-list entry matched (and the
source-account checks passed), validateTransfer fails with invalid amount
exactly when the decoded amount is strictly less than the configured fee;
at exact equality the amount check passes. -/
theorem claim3_amount_boundary (chain : Chain) (tx : Transaction) (allowed : List TokenFee)
    (ix : TransactionInstruction) (parts : TransferParts) (acct : TokenAccount)
    (token : TokenFee)
    (hfind : findTokenInstruction tx = some ix)
    (hdec : decodeTokenInstruction ix = .ok (some parts))
    (hsrc : sourceChecks chain parts = .ok acct)
    (htok : findFeeToken allowed acct.mint = some token) :
    (validateTransfer chain tx allowed = .error (JsError.error "invalid amount") ↔
      parts.amount < token.fee)
    ∧ (parts.amount = token.fee →
        validateTransfer chain tx allowed ≠ .error (JsError.error "invalid amount")) := by
  have hred : validateTransfer chain tx allowed =
      (if parts.amount < token.fee then .error (JsError.error "invalid amount")
       else roleChecks tx parts token) := by
    simp only [validateTransfer, hfind, validateTransferOnIx, hdec, validateTransferParts,
      hsrc, htok]
  constructor
  · constructor
    · intro h
      rw [hred] at h
      by_contra hlt
      rw [if_neg hlt] at h
      exact roleChecks_ne_invalid_amount tx parts token h
    · intro hlt
      rw [hred, if_pos hlt]
  · intro heq h
    rw [hred, if_neg (by omega)] at h
    exact roleChecks_ne_invalid_amount tx parts token h

/-- C3 witness: the concrete boundary scenario with amount 10 and fee 10
passes the amount check, and dropping the amount to 9 fails with invalid
amount. -/
theorem claim3_amount_boundary_witness :
    (validateTransfer chainE txE allowedE ≠ .error (JsError.error "invalid amount")) ∧
      (validateTransfer chainE
        { txE with instructions := [{ transferIxE with data := .transfer 9 }] } allowedE =
          .error (JsError.error "invalid amount")) := by
  constructor
  · exact (claim3_amount_boundary chainE txE allowedE transferIxE
      ⟨⟨3, false, true⟩, ⟨5, false, true⟩, ⟨2, true, false⟩, 10, none⟩
      ⟨4, 2, 100, false⟩ feeEntryE (by decide) (by decide) (by decide) (by decide)).2 (by decide)
  · exact (claim3_amount_boundary chainE
      { txE with instructions := [{ transferIxE with data := .transfer 9 }] } allowedE
      { transferIxE with data := .transfer 9 }
      ⟨⟨3, false, true⟩, ⟨5, false, true⟩, ⟨2, true, false⟩, 9, none⟩
      ⟨4, 2, 100, false⟩ feeEntryE (by decide) (by decide) (by decide) (by decide)).1.mpr (by decide)

set_option maxHeartbeats 1600000 in
theorem roleChecks_owner_missing_char (tx : Transaction) (parts : TransferParts)
    (token : TokenFee)
    (h : roleChecks tx parts token = .error (JsError.error "owner missing signature")) :
    ∃ s1 p, tx.signatures.get? 1 = some s1 ∧ s1.publicKey = some p ∧
      parts.owner.pubkey ≠ p := by
  unfold roleChecks at h
  repeat' split at h
  all_goals first
    | (exact ⟨_, _, by assumption, by assumption, by assumption⟩)
    | (cases h)
    | (injection h with h2; injection h2 with h3; exact absurd h3 (by decide))

/-- C9: the owner check of validateTransfer presupposes a second signature
slot: when every earlier transfer check passes but the transaction has at
most one signature slot, the function fails with a runtime TypeError (from
dereferencing the missing `transaction.signatures[1]`) rather than a
taxonomy error; and the error owner missing signature is raised only when
a second slot with a present public key exists and that key differs from
the decoded instruction's authority. -/
theorem claim9_owner_check_presupposes_second_slot :
    (∀ (chain : Chain) (tx : Transaction) (allowed : List TokenFee)
        (ix : TransactionInstruction) (parts : TransferParts) (acct : TokenAccount)
        (token : TokenFee),
        findTokenInstruction tx = some ix →
        decodeTokenInstruction ix = .ok (some parts) →
        sourceChecks chain parts = .ok acct →
        findFeeToken allowed acct.mint = some token →
        ¬ parts.amount < token.fee →
        parts.source.isSigner = false →
        parts.destination.pubkey = token.account →
        parts.destination.isWritable = true →
        parts.destination.isSigner = false →
        tx.signatures.length ≤ 1 →
        validateTransfer chain tx allowed = .error JsError.typeError)
    ∧ (∀ (chain : Chain) (tx : Transaction) (allowed : List TokenFee),
        validateTransfer chain tx allowed = .error (JsError.error "owner missing signature") →
        ∃ ix parts s1 p, findTokenInstruction tx = some ix ∧
          decodeTokenInstruction ix = .ok (some parts) ∧
          tx.signatures.get? 1 = some s1 ∧ s1.publicKey = some p ∧
          parts.owner.pubkey ≠ p) := by
  constructor
  · intro chain tx allowed ix parts acct token hfind hdec hsrc htok hamt hsig hdp hdw hds hlen
    have hget : tx.signatures.get? 1 = none := List.get?_eq_none.mpr hlen
    simp only [validateTransfer, hfind, validateTransferOnIx, hdec, validateTransferParts,
      hsrc, htok, if_neg hamt]
    unfold roleChecks
    rw [if_neg (by simp [hsig]), if_neg (by simp [hdp]), if_neg (by simp [hdw]),
      if_neg (by simp [hds]), hget]
  · intro chain tx allowed h
    cases hfind : findTokenInstruction tx with
    | none =>
      simp only [validateTransfer, hfind] at h
      exact absurd h (by decide)
    | some ix =>
      simp only [validateTransfer, hfind] at h
      cases hdec : decodeTokenInstruction ix with
      | error e =>
        simp only [validateTransferOnIx, hdec] at h
        injection h with h2
        rcases decodeTokenInstruction_error_char ix e hdec with h3 | h3 <;>
          (rw [h2] at h3; exact absurd h3 (by decide))
      | ok od =>
        cases od with
        | none =>
          simp only [validateTransferOnIx, hdec] at h
          exact absurd h (by decide)
        | some parts =>
          simp only [validateTransferOnIx, hdec] at h
          cases hsrc : sourceChecks chain parts with
          | error e =>
            simp only [validateTransferParts, hsrc] at h
            injection h with h2
            rcases sourceChecks_error_char chain parts e hsrc with h3 | ⟨s2, hs2, hmem⟩
            · rw [h2] at h3; cases h3
            · rw [h2] at hs2
              injection hs2 with h4
              rw [← h4] at hmem
              exact absurd hmem (by decide)
          | ok acct =>
            simp only [validateTransferParts, hsrc] at h
            cases htok : findFeeToken allowed acct.mint with
            | none =>
              simp only [htok] at h
              exact absurd h (by decide)
            | some token =>
              simp only [htok] at h
              by_cases hamt : parts.amount < token.fee
              · rw [if_pos hamt] at h
                exact absurd h (by decide)
              · rw [if_neg hamt] at h
                obtain ⟨s1, p, h1, h2, h3⟩ := roleChecks_owner_missing_char tx parts token h
                exact ⟨ix, parts, s1, p, rfl, hdec, h1, h2, h3⟩

/-- C9 witness: the one-slot transaction that passes every earlier check
hits the runtime TypeError, and a second slot with a different pubkey
yields owner missing signature, which the theorem traces back to that
slot. -/
theorem claim9_owner_check_presupposes_second_slot_witness :
    validateTransfer chainE { txE with signatures := [⟨some 1, none⟩] } allowedE =
      .error JsError.typeError ∧
    (∃ ix parts s1 p,
      findTokenInstruction { txE with signatures := [⟨some 1, none⟩, ⟨some 9, some "osig"⟩] } = some ix ∧
      decodeTokenInstruction ix = .ok (some parts) ∧
      ({ txE with signatures := [⟨some 1, none⟩, ⟨some 9, some "osig"⟩] } : Transaction).signatures.get? 1 = some s1 ∧
      s1.publicKey = some p ∧ parts.owner.pubkey ≠ p) := by
  constructor
  · exact claim9_owner_check_presupposes_second_slot.1 chainE
      { txE with signatures := [⟨some 1, none⟩] } allowedE transferIxE
      ⟨⟨3, false, true⟩, ⟨5, false, true⟩, ⟨2, true, false⟩, 10, none⟩
      ⟨4, 2, 100, false⟩ feeEntryE (by decide) (by decide) (by decide) (by decide)
      (by decide) (by decide) (by decide) (by decide) (by decide) (by decide)
  · exact claim9_owner_check_presupposes_second_slot.2 chainE
      { txE with signatures := [⟨some 1, none⟩, ⟨some 9, some "osig"⟩] } allowedE (by decide)

theorem checkSecondary_none_iff (l : List SigPair) :
    checkSecondary l = none ↔ ∀ s ∈ l, s.publicKey ≠ none ∧ s.signature ≠ none := by
  induction l with
  | nil => simp [checkSecondary]
  | cons s rest ih =>
    simp only [checkSecondary]
    by_cases h1 : s.publicKey = none
    · rw [if_pos h1]; simp [h1]
    · rw [if_neg h1]
      by_cases h2 : s.signature = none
      · rw [if_pos h2]; simp [h1, h2]
      · rw [if_neg h2]; rw [ih]; simp [List.forall_mem_cons, h1, h2]

theorem checkSecondary_some_char (l : List SigPair) (e : JsError)
    (h : checkSecondary l = some e) :
    (e = JsError.error "missing public key" ∧ ∃ s ∈ l, s.publicKey = none) ∨
      (e = JsError.error "missing signature" ∧
        ∃ s ∈ l, s.publicKey ≠ none ∧ s.signature = none) := by
  induction l with
  | nil => simp [checkSecondary] at h
  | cons s rest ih =>
    simp only [checkSecondary] at h
    by_cases h1 : s.publicKey = none
    · rw [if_pos h1] at h
      injection h with h2
      exact Or.inl ⟨h2.symm, s, by simp, h1⟩
    · rw [if_neg h1] at h
      by_cases h2 : s.signature = none
      · rw [if_pos h2] at h
        injection h with h3
        exact Or.inr ⟨h3.symm, s, by simp, h1, h2⟩
      · rw [if_neg h2] at h
        rcases ih h with ⟨he, s', hs', hp⟩ | ⟨he, s', hs', hp⟩
        · exact Or.inl ⟨he, s', List.mem_cons_of_mem _ hs', hp⟩
        · exact Or.inr ⟨he, s', List.mem_cons_of_mem _ hs', hp⟩

/-- C4: validateTransaction performs its checks in the stated order, each
failure raising its own named error: fee payer identity, blockhash
presence, nonzero and bounded slot count, slot 0 matching the custody key
with empty signature bytes, then every remaining slot populated; the
secondary-slot loop raises exactly missing public key or missing
signature; and on any error the returned transaction is the input
unchanged (the custody signature is attached only on success). -/
theorem claim4_envelope_check_order (tx : Transaction) (k : PubKey) (m l : Nat) :
    (tx.feePayer ≠ some k →
      (validateTransactionS tx k m l).2 = .error (JsError.error "invalid fee payer"))
    ∧ (tx.feePayer = some k → bhPresent tx = false →
      (validateTransactionS tx k m l).2 = .error (JsError.error "missing recent blockhash"))
    ∧ (tx.feePayer = some k → bhPresent tx = true → tx.signatures = [] →
      (validateTransactionS tx k m l).2 = .error (JsError.error "no signatures"))
    ∧ (∀ s0 rest, tx.feePayer = some k → bhPresent tx = true →
      tx.signatures = s0 :: rest → m < (s0 :: rest).length →
      (validateTransactionS tx k m l).2 = .error (JsError.error "too many signatures"))
    ∧ (∀ s0 rest p, tx.feePayer = some k → bhPresent tx = true →
      tx.signatures = s0 :: rest → (s0 :: rest).length ≤ m →
      s0.publicKey = some p → p ≠ k →
      (validateTransactionS tx k m l).2 = .error (JsError.error "invalid fee payer pubkey"))
    ∧ (∀ s0 rest sb, tx.feePayer = some k → bhPresent tx = true →
      tx.signatures = s0 :: rest → (s0 :: rest).length ≤ m →
      s0.publicKey = some k → s0.signature = some sb →
      (validateTransactionS tx k m l).2 = .error (JsError.error "invalid fee payer signature"))
    ∧ (∀ s0 rest e, tx.feePayer = some k → bhPresent tx = true →
      tx.signatures = s0 :: rest → (s0 :: rest).length ≤ m →
      s0.publicKey = some k → s0.signature = none →
      checkSecondary rest = some e →
      (validateTransactionS tx k m l).2 = .error e ∧
        ((e = JsError.error "missing public key" ∧ ∃ s ∈ rest, s.publicKey = none) ∨
          (e = JsError.error "missing signature" ∧
            ∃ s ∈ rest, s.publicKey ≠ none ∧ s.signature = none)))
    ∧ (∀ s0 rest, tx.feePayer = some k → bhPresent tx = true →
      tx.signatures = s0 :: rest → (s0 :: rest).length ≤ m →
      s0.publicKey = some k → s0.signature = none →
      ((checkSecondary rest = none ↔
        ∀ s ∈ rest, s.publicKey ≠ none ∧ s.signature ≠ none)
       ∧ (checkSecondary rest = none →
        (validateTransactionS tx k m l).2 = .ok (mkSig k (msgFingerprint tx)))))
    ∧ (∀ e, (validateTransactionS tx k m l).2 = .error e →
      (validateTransactionS tx k m l).1 = tx) := by
  refine ⟨?_, ?_, ?_, ?_, ?_, ?_, ?_, ?_, ?_⟩
  · intro h
    simp only [validateTransactionS, if_pos h]
  · intro h1 h2
    simp only [validateTransactionS, if_neg (not_not_intro h1),
      if_pos (show (!bhPresent tx) = true by simp [h2])]
  · intro h1 h2 h3
    simp only [validateTransactionS, if_neg (not_not_intro h1),
      if_neg (show ¬(!bhPresent tx) = true by simp [h2]), h3]
  · intro s0 rest h1 h2 h3 h4
    simp only [validateTransactionS, if_neg (not_not_intro h1),
      if_neg (show ¬(!bhPresent tx) = true by simp [h2]), h3, if_pos h4]
  · intro s0 rest p h1 h2 h3 h4 h5 h6
    simp only [validateTransactionS, if_neg (not_not_intro h1),
      if_neg (show ¬(!bhPresent tx) = true by simp [h2]), h3,
      if_neg (show ¬(m < (s0 :: rest).length) by omega), h5, if_pos h6]
  · intro s0 rest sb h1 h2 h3 h4 h5 h6
    simp only [validateTransactionS, if_neg (not_not_intro h1),
      if_neg (show ¬(!bhPresent tx) = true by simp [h2]), h3,
      if_neg (show ¬(m < (s0 :: rest).length) by omega), h5,
      if_neg (show ¬(k ≠ k) from fun hc => hc rfl),
      if_pos (show s0.signature ≠ none by simp [h6])]
  · intro s0 rest e h1 h2 h3 h4 h5 h6 h7
    refine ⟨?_, checkSecondary_some_char rest e h7⟩
    simp only [validateTransactionS, if_neg (not_not_intro h1),
      if_neg (show ¬(!bhPresent tx) = true by simp [h2]), h3,
      if_neg (show ¬(m < (s0 :: rest).length) by omega), h5,
      if_neg (show ¬(k ≠ k) from fun hc => hc rfl),
      if_neg (show ¬s0.signature ≠ none from not_not_intro h6), h7]
  · intro s0 rest h1 h2 h3 h4 h5 h6
    refine ⟨checkSecondary_none_iff rest, ?_⟩
    intro h7
    simp only [validateTransactionS, if_neg (not_not_intro h1),
      if_neg (show ¬(!bhPresent tx) = true by simp [h2]), h3,
      if_neg (show ¬(m < (s0 :: rest).length) by omega), h5,
      if_neg (show ¬(k ≠ k) from fun hc => hc rfl),
      if_neg (show ¬s0.signature ≠ none from not_not_intro h6), h7]
  · intro e h
    rcases hvt : validateTransactionS tx k m l with ⟨tx1, r⟩
    rw [hvt] at h
    simp only at h
    unfold validateTransactionS at hvt
    repeat' split at hvt
    all_goals
      injection hvt with hv1 hv2
    all_goals first
      | exact hv1.symm
      | (rw [← hv2] at h; cases h)

/-- C4 witness: a wrong fee payer yields the first named error with the
transaction unchanged, and the well-formed transaction signs
successfully. -/
theorem claim4_envelope_check_order_witness :
    ((validateTransactionS { txE with feePayer := some 9 } custodyK 2 5000).2 =
      .error (JsError.error "invalid fee payer")) ∧
    ((validateTransactionS { txE with feePayer := some 9 } custodyK 2 5000).1 =
      { txE with feePayer := some 9 }) ∧
    ((validateTransactionS txE custodyK 2 5000).2 =
      .ok (mkSig custodyK (msgFingerprint txE))) := by
  refine ⟨?_, ?_, ?_⟩
  · exact (claim4_envelope_check_order { txE with feePayer := some 9 } custodyK 2 5000).1
      (by decide)
  · exact (claim4_envelope_check_order { txE with feePayer := some 9 } custodyK 2 5000).2.2.2.2.2.2.2.2
      (JsError.error "invalid fee payer")
      ((claim4_envelope_check_order { txE with feePayer := some 9 } custodyK 2 5000).1
        (by decide))
  · exact ((claim4_envelope_check_order txE custodyK 2 5000).2.2.2.2.2.2.2.1
      ⟨some 1, none⟩ [⟨some 2, some "osig"⟩] (by decide) (by decide) (by decide)
      (by decide) (by decide) (by decide)).2 (by decide)

theorem stringDataAppend (s t : String) : (s ++ t).data = s.data ++ t.data := by
  cases s; cases t; rfl

theorem cacheGetSet (c : Cache) (k k2 : String) (v : CacheVal) :
    Cache.get (Cache.set c k v) k2 = if k2 = k then some v else Cache.get c k2 := by
  unfold Cache.get Cache.set
  by_cases h : k2 = k
  · subst h
    rw [if_pos rfl, List.find?_cons_of_pos _ (by simp)]
    rfl
  · rw [if_neg h, List.find?_cons_of_neg _
      (by simp only [decide_eq_true_eq]; exact fun hc => h hc.symm)]

theorem dedupKey_ne_transferLockKey (tx : Transaction) (src : PubKey) :
    dedupKey tx ≠ transferLockKey src := by
  intro h
  unfold dedupKey transferLockKey at h
  have h2 := congrArg String.data h
  simp only [stringDataAppend] at h2
  have h3 := congrArg (fun l => l.get? 5) h2
  simp only at h3
  rw [List.get?_append (by decide), List.get?_append (by decide)] at h3
  exact absurd h3 (by decide)

theorem dedupKey_ne_createAccountLockKey (tx : Transaction) (src : PubKey) :
    dedupKey tx ≠ createAccountLockKey src := by
  intro h
  unfold dedupKey createAccountLockKey at h
  have h2 := congrArg String.data h
  simp only [stringDataAppend] at h2
  have h3 := congrArg (fun l => l.get? 0) h2
  simp only at h3
  rw [List.get?_append (by decide), List.get?_append (by decide)] at h3
  exact absurd h3 (by decide)

theorem dedupKey_ne_acctInitKey (tx t1 : Transaction) (ata : PubKey) :
    dedupKey tx ≠ acctInitKey t1 ata := by
  intro h
  unfold dedupKey acctInitKey at h
  have h2 := congrArg String.data h
  simp only [stringDataAppend] at h2
  have h3 := congrArg (fun l => l.get? 0) h2
  simp only at h3
  rw [List.get?_append (by decide), List.get?_append (by decide)] at h3
  exact absurd h3 (by decide)

theorem validateAccountInit_get_preserved (chain : Chain) (tx : Transaction) (k : PubKey)
    (c : Cache) (key : String) (hk : ∀ ata, key ≠ acctInitKey tx ata) :
    Cache.get (validateAccountInitializationInstructions chain tx k c).1 key =
      Cache.get c key := by
  simp only [validateAccountInitializationInstructions]
  repeat' split
  all_goals first
    | rfl
    | (rw [cacheGetSet, if_neg (hk _)])

theorem signWithTokenFee_dedup_key_set (chain : Chain) (tx : Transaction) (k : PubKey)
    (m l : Nat) (allowed : List TokenFee) (c : Cache) (now tmo : Int)
    (h : truthy (Cache.get c (dedupKey tx)) = false) :
    Cache.get (signWithTokenFee chain tx k m l allowed c now tmo).1 (dedupKey tx) =
      some (.b true) := by
  simp only [signWithTokenFee]
  rw [if_neg (by simp [h])]
  repeat' split
  all_goals first
    | (rw [cacheGetSet, if_pos rfl])
    | (rw [cacheGetSet, if_neg (dedupKey_ne_transferLockKey tx _), cacheGetSet, if_pos rfl])

theorem createAccountIfTokenFeePaid_dedup_key_set (chain : Chain) (tx : Transaction)
    (k : PubKey) (m l : Nat) (allowed : List TokenFee) (c : Cache) (now tmo : Int)
    (h : truthy (Cache.get c (dedupKey tx)) = false) :
    Cache.get (createAccountIfTokenFeePaid chain tx k m l allowed c now tmo).1 (dedupKey tx) =
      some (.b true) := by
  simp only [createAccountIfTokenFeePaid]
  rw [if_neg (by simp [h])]
  split
  · rw [cacheGetSet, if_pos rfl]
  · next tx1 sg heq =>
    split
    · next c2 e heq2 =>
      have hp := validateAccountInit_get_preserved chain tx1 k
        (Cache.set c (dedupKey tx) (CacheVal.b true)) (dedupKey tx)
        (fun ata => dedupKey_ne_acctInitKey tx tx1 ata)
      rw [heq2] at hp
      simp only at hp
      rw [hp, cacheGetSet, if_pos rfl]
    · next c2 u heq2 =>
      have hp := validateAccountInit_get_preserved chain tx1 k
        (Cache.set c (dedupKey tx) (CacheVal.b true)) (dedupKey tx)
        (fun ata => dedupKey_ne_acctInitKey tx tx1 ata)
      rw [heq2] at hp
      simp only at hp
      split
      · rw [hp, cacheGetSet, if_pos rfl]
      · next parts heq3 =>
        split
        · rw [hp, cacheGetSet, if_pos rfl]
        · split
          all_goals rw [cacheGetSet, if_neg (dedupKey_ne_createAccountLockKey tx _), hp,
              cacheGetSet, if_pos rfl]

theorem signWithTokenFee_duplicate (chain : Chain) (tx : Transaction) (k : PubKey)
    (m l : Nat) (allowed : List TokenFee) (c : Cache) (now tmo : Int)
    (h : truthy (Cache.get c (dedupKey tx)) = true) :
    signWithTokenFee chain tx k m l allowed c now tmo =
      (c, .error (JsError.error "duplicate transaction")) := by
  simp only [signWithTokenFee]
  rw [if_pos h]

theorem createAccountIfTokenFeePaid_duplicate (chain : Chain) (tx : Transaction)
    (k : PubKey) (m l : Nat) (allowed : List TokenFee) (c : Cache) (now tmo : Int)
    (h : truthy (Cache.get c (dedupKey tx)) = true) :
    createAccountIfTokenFeePaid chain tx k m l allowed c now tmo =
      (c, .error (JsError.error "duplicate transaction")) := by
  simp only [createAccountIfTokenFeePaid]
  rw [if_pos h]

/-- C2: both orchestrators write the transaction-fingerprint dedup key
before any other validation runs and never roll it back: whenever the key
was not already set, it is set in the resulting cache no matter how the
call ended, and any second call with the identical signing payload fails
with duplicate transaction, leaving the cache unchanged. -/
theorem claim2_dedup_key_speculative_write (chain : Chain) (tx : Transaction) (k : PubKey)
    (m l : Nat) (allowed : List TokenFee) (c : Cache) (now tmo : Int)
    (h : truthy (Cache.get c (dedupKey tx)) = false) :
    (truthy (Cache.get (signWithTokenFee chain tx k m l allowed c now tmo).1 (dedupKey tx)) = true
      ∧ ∀ (chain2 : Chain) (k2 : PubKey) (m2 l2 : Nat) (allowed2 : List TokenFee) (now2 tmo2 : Int),
        signWithTokenFee chain2 tx k2 m2 l2 allowed2
            (signWithTokenFee chain tx k m l allowed c now tmo).1 now2 tmo2 =
          ((signWithTokenFee chain tx k m l allowed c now tmo).1,
            .error (JsError.error "duplicate transaction")))
    ∧ (truthy (Cache.get (createAccountIfTokenFeePaid chain tx k m l allowed c now tmo).1 (dedupKey tx)) = true
      ∧ ∀ (chain2 : Chain) (k2 : PubKey) (m2 l2 : Nat) (allowed2 : List TokenFee) (now2 tmo2 : Int),
        createAccountIfTokenFeePaid chain2 tx k2 m2 l2 allowed2
            (createAccountIfTokenFeePaid chain tx k m l allowed c now tmo).1 now2 tmo2 =
          ((createAccountIfTokenFeePaid chain tx k m l allowed c now tmo).1,
            .error (JsError.error "duplicate transaction"))) := by
  have hs := signWithTokenFee_dedup_key_set chain tx k m l allowed c now tmo h
  have ha := createAccountIfTokenFeePaid_dedup_key_set chain tx k m l allowed c now tmo h
  have hst : truthy (Cache.get (signWithTokenFee chain tx k m l allowed c now tmo).1 (dedupKey tx)) = true := by
    rw [hs]; rfl
  have hat : truthy (Cache.get (createAccountIfTokenFeePaid chain tx k m l allowed c now tmo).1 (dedupKey tx)) = true := by
    rw [ha]; rfl
  refine ⟨⟨hst, ?_⟩, hat, ?_⟩
  · intro chain2 k2 m2 l2 allowed2 now2 tmo2
    exact signWithTokenFee_duplicate chain2 tx k2 m2 l2 allowed2 _ now2 tmo2 hst
  · intro chain2 k2 m2 l2 allowed2 now2 tmo2
    exact createAccountIfTokenFeePaid_duplicate chain2 tx k2 m2 l2 allowed2 _ now2 tmo2 hat

/-- C2 witness: a first call on an empty cache marks the key, and the
identical payload immediately fails as a duplicate on the second call, for
both orchestrators. -/
theorem claim2_dedup_key_speculative_write_witness :
    truthy (Cache.get (signWithTokenFee chainE txE custodyK 2 5000 allowedE [] 100 5000).1
        (dedupKey txE)) = true ∧
    signWithTokenFee chainE txE custodyK 2 5000 allowedE
        (signWithTokenFee chainE txE custodyK 2 5000 allowedE [] 100 5000).1 200 5000 =
      ((signWithTokenFee chainE txE custodyK 2 5000 allowedE [] 100 5000).1,
        .error (JsError.error "duplicate transaction")) ∧
    createAccountIfTokenFeePaid chainE txAcctE custodyK 2 5000 allowedE
        (createAccountIfTokenFeePaid chainE txAcctE custodyK 2 5000 allowedE [] 100 5000).1 200 5000 =
      ((createAccountIfTokenFeePaid chainE txAcctE custodyK 2 5000 allowedE [] 100 5000).1,
        .error (JsError.error "duplicate transaction")) := by
  have h1 := claim2_dedup_key_speculative_write chainE txE custodyK 2 5000 allowedE [] 100 5000
    (by decide)
  have h2 := claim2_dedup_key_speculative_write chainE txAcctE custodyK 2 5000 allowedE [] 100 5000
    (by decide)
  exact ⟨h1.1.1, h1.1.2 chainE custodyK 2 5000 allowedE 200 5000,
    h2.2.2 chainE custodyK 2 5000 allowedE 200 5000⟩

/-- C5: once a run reaches the per-source lockout stage, a cached timestamp
for the transfer source within the cooldown window (strictly less than
sameSourceTimeout) makes the orchestrator fail with duplicate transfer;
with no timestamp or an elapsed window the stage succeeds, the key
(transfer/... or createAccount/...) is overwritten with the current time,
and the run proceeds to simulation. -/
theorem claim5_per_source_cooldown (chain : Chain) (tx : Transaction) (k : PubKey)
    (m l : Nat) (allowed : List TokenFee) (c : Cache) (now tmo : Int)
    (hdedup : truthy (Cache.get c (dedupKey tx)) = false) :
    (∀ tx1 sg parts t,
      validateTransactionS tx k m l = (tx1, .ok sg) →
      validateInstructions tx1 k = .ok () →
      validateTransfer chain tx1 allowed = .ok parts →
      Cache.get c (transferLockKey parts.source.pubkey) = some (.n t) →
      t ≠ 0 → now - t < tmo →
      (signWithTokenFee chain tx k m l allowed c now tmo).2 =
        .error (JsError.error "duplicate transfer"))
    ∧ (∀ tx1 sg parts,
      validateTransactionS tx k m l = (tx1, .ok sg) →
      validateInstructions tx1 k = .ok () →
      validateTransfer chain tx1 allowed = .ok parts →
      (Cache.get c (transferLockKey parts.source.pubkey) = none ∨
        ∃ v, Cache.get c (transferLockKey parts.source.pubkey) = some v ∧
          (truthyVal v = false ∨ ¬ now - cacheValNum v < tmo)) →
      Cache.get (signWithTokenFee chain tx k m l allowed c now tmo).1
          (transferLockKey parts.source.pubkey) = some (.n now)
        ∧ (signWithTokenFee chain tx k m l allowed c now tmo).2 =
          (if chain.simulateErr then .error (JsError.error "Simulation error") else .ok sg))
    ∧ (∀ tx1 sg c2 parts t,
      validateTransactionS tx k m l = (tx1, .ok sg) →
      validateAccountInitializationInstructions chain tx1 k
          (Cache.set c (dedupKey tx) (.b true)) = (c2, .ok ()) →
      validateTransfer chain tx1 allowed = .ok parts →
      Cache.get c2 (createAccountLockKey parts.source.pubkey) = some (.n t) →
      t ≠ 0 → now - t < tmo →
      (createAccountIfTokenFeePaid chain tx k m l allowed c now tmo).2 =
        .error (JsError.error "duplicate transfer"))
    ∧ (∀ tx1 sg c2 parts,
      validateTransactionS tx k m l = (tx1, .ok sg) →
      validateAccountInitializationInstructions chain tx1 k
          (Cache.set c (dedupKey tx) (.b true)) = (c2, .ok ()) →
      validateTransfer chain tx1 allowed = .ok parts →
      (Cache.get c2 (createAccountLockKey parts.source.pubkey) = none ∨
        ∃ v, Cache.get c2 (createAccountLockKey parts.source.pubkey) = some v ∧
          (truthyVal v = false ∨ ¬ now - cacheValNum v < tmo)) →
      Cache.get (createAccountIfTokenFeePaid chain tx k m l allowed c now tmo).1
          (createAccountLockKey parts.source.pubkey) = some (.n now)
        ∧ (createAccountIfTokenFeePaid chain tx k m l allowed c now tmo).2 =
          (if chain.simulateErr then .error (JsError.error "Simulation error") else .ok sg)) := by
  refine ⟨?_, ?_, ?_, ?_⟩
  · intro tx1 sg parts t hvt hvi hvtr hc ht hlt
    simp only [signWithTokenFee, hvt, hvi, hvtr]
    rw [if_neg (by simp [hdedup])]
    have hl : lockHit (Cache.set c (dedupKey tx) (CacheVal.b true))
        (transferLockKey parts.source.pubkey) now tmo = true := by
      unfold lockHit
      rw [cacheGetSet, if_neg (Ne.symm (dedupKey_ne_transferLockKey tx _)), hc]
      simp [truthyVal, cacheValNum, ht, hlt]
    rw [if_pos hl]
  · intro tx1 sg parts hvt hvi hvtr hcool
    simp only [signWithTokenFee, hvt, hvi, hvtr]
    rw [if_neg (by simp [hdedup])]
    have hl : lockHit (Cache.set c (dedupKey tx) (CacheVal.b true))
        (transferLockKey parts.source.pubkey) now tmo = false := by
      unfold lockHit
      rw [cacheGetSet, if_neg (Ne.symm (dedupKey_ne_transferLockKey tx _))]
      rcases hcool with hn | ⟨v, hv, hd⟩
      · rw [hn]
      · rw [hv]
        rcases hd with hd | hd <;> simp [hd]
    rw [if_neg (by simp [hl])]
    refine ⟨?_, ?_⟩
    · rw [apply_ite Prod.fst, ite_self, cacheGetSet, if_pos rfl]
    · rw [apply_ite Prod.snd]
  · intro tx1 sg c2 parts t hvt hai hvtr hc ht hlt
    simp only [createAccountIfTokenFeePaid, hvt]
    rw [if_neg (by simp [hdedup])]
    simp only [hai, hvtr]
    have hl : lockHit c2 (createAccountLockKey parts.source.pubkey) now tmo = true := by
      unfold lockHit
      rw [hc]
      simp [truthyVal, cacheValNum, ht, hlt]
    rw [if_pos hl]
  · intro tx1 sg c2 parts hvt hai hvtr hcool
    simp only [createAccountIfTokenFeePaid, hvt]
    rw [if_neg (by simp [hdedup])]
    simp only [hai, hvtr]
    have hl : lockHit c2 (createAccountLockKey parts.source.pubkey) now tmo = false := by
      unfold lockHit
      rcases hcool with hn | ⟨v, hv, hd⟩
      · rw [hn]
      · rw [hv]
        rcases hd with hd | hd <;> simp [hd]
    rw [if_neg (by simp [hl])]
    refine ⟨?_, ?_⟩
    · rw [apply_ite Prod.fst, ite_self, cacheGetSet, if_pos rfl]
    · rw [apply_ite Prod.snd]

/-- C5 witness: a 99 ms-old timestamp at time 100 with timeout 5000 makes
both orchestrators fail with duplicate transfer; on an empty cache the
lockout stage passes and the cooldown key is overwritten with the current
time. -/
theorem claim5_per_source_cooldown_witness :
    (signWithTokenFee chainE txE custodyK 2 5000 allowedE
        [(transferLockKey 3, CacheVal.n 99)] 100 5000).2 =
      .error (JsError.error "duplicate transfer") ∧
    (Cache.get (signWithTokenFee chainE txE custodyK 2 5000 allowedE [] 100 5000).1
        (transferLockKey
          (TransferParts.mk ⟨3, false, true⟩ ⟨5, false, true⟩ ⟨2, true, false⟩ 10 none).source.pubkey) =
        some (CacheVal.n 100)
      ∧ (signWithTokenFee chainE txE custodyK 2 5000 allowedE [] 100 5000).2 =
        (if chainE.simulateErr then .error (JsError.error "Simulation error")
         else .ok (mkSig custodyK (msgFingerprint txE)))) ∧
    (createAccountIfTokenFeePaid chainE txAcctE custodyK 2 5000 allowedE
        [(createAccountLockKey 3, CacheVal.n 99)] 100 5000).2 =
      .error (JsError.error "duplicate transfer") := by
  refine ⟨?_, ?_, ?_⟩
  · exact (claim5_per_source_cooldown chainE txE custodyK 2 5000 allowedE
      [(transferLockKey 3, CacheVal.n 99)] 100 5000 (by decide)).1
      (validateTransactionS txE custodyK 2 5000).1 (mkSig custodyK (msgFingerprint txE))
      ⟨⟨3, false, true⟩, ⟨5, false, true⟩, ⟨2, true, false⟩, 10, none⟩ 99
      (by decide) (by decide) (by decide) (by decide) (by decide) (by decide)
  · exact (claim5_per_source_cooldown chainE txE custodyK 2 5000 allowedE [] 100 5000
      (by decide)).2.1
      (validateTransactionS txE custodyK 2 5000).1 (mkSig custodyK (msgFingerprint txE))
      ⟨⟨3, false, true⟩, ⟨5, false, true⟩, ⟨2, true, false⟩, 10, none⟩
      (by decide) (by decide) (by decide) (Or.inl (by decide))
  · exact (claim5_per_source_cooldown chainE txAcctE custodyK 2 5000 allowedE
      [(createAccountLockKey 3, CacheVal.n 99)] 100 5000 (by decide)).2.2.1
      (validateTransactionS txAcctE custodyK 2 5000).1 (mkSig custodyK (msgFingerprint txAcctE))
      ((validateAccountInitializationInstructions chainE
        (validateTransactionS txAcctE custodyK 2 5000).1 custodyK
        (Cache.set [(createAccountLockKey 3, CacheVal.n 99)] (dedupKey txAcctE) (CacheVal.b true))).1)
      ⟨⟨3, false, true⟩, ⟨5, false, true⟩, ⟨2, true, false⟩, 10, none⟩ 99
      (by decide) (by decide) (by decide) (by decide) (by decide) (by decide)

/-- C6: when the derived associated token account already exists on-chain,
validateAccountInitializationInstructions fails with account already
exists and writes nothing to the cache; on any failure the cache is
unchanged, and the account/blockhash mark is written only when every
structural check (instruction count, target program, on-chain absence,
byte-for-byte instruction match, no prior mark) has passed. -/
theorem claim6_account_exists_no_mark (chain : Chain) (tx : Transaction) (k : PubKey)
    (c : Cache) :
    (∀ instr ownerMeta mintMeta,
      tx.instructions.length = 2 →
      tx.instructions.get? 1 = some instr →
      instr.programId = ataProgramId →
      instr.keys.get? 2 = some ownerMeta →
      instr.keys.get? 3 = some mintMeta →
      chain.existingAccounts.contains (ataAddr mintMeta.pubkey ownerMeta.pubkey) = true →
      validateAccountInitializationInstructions chain tx k c =
        (c, .error (JsError.error "account already exists")))
    ∧ (∀ e, (validateAccountInitializationInstructions chain tx k c).2 = .error e →
        (validateAccountInitializationInstructions chain tx k c).1 = c)
    ∧ ((validateAccountInitializationInstructions chain tx k c).2 = .ok () →
        ∃ instr ownerMeta mintMeta,
          tx.instructions.length = 2 ∧
          tx.instructions.get? 1 = some instr ∧
          instr.programId = ataProgramId ∧
          instr.keys.get? 2 = some ownerMeta ∧
          instr.keys.get? 3 = some mintMeta ∧
          chain.existingAccounts.contains (ataAddr mintMeta.pubkey ownerMeta.pubkey) = false ∧
          areInstructionsEqual
            (refAtaInstruction k (ataAddr mintMeta.pubkey ownerMeta.pubkey)
              ownerMeta.pubkey mintMeta.pubkey) instr = true ∧
          truthy (Cache.get c (acctInitKey tx (ataAddr mintMeta.pubkey ownerMeta.pubkey))) = false ∧
          (validateAccountInitializationInstructions chain tx k c).1 =
            Cache.set c (acctInitKey tx (ataAddr mintMeta.pubkey ownerMeta.pubkey)) (.b true)) := by
  refine ⟨?_, ?_, ?_⟩
  · intro instr ownerMeta mintMeta hlen hget hprog hk2 hk3 hex
    simp only [validateAccountInitializationInstructions, hget, hk2, hk3]
    rw [if_neg (by omega), if_neg (not_not_intro hprog), if_pos hex]
  · intro e h
    rcases hrun : validateAccountInitializationInstructions chain tx k c with ⟨c2, r⟩
    rw [hrun] at h
    simp only at h
    simp only [validateAccountInitializationInstructions] at hrun
    repeat' split at hrun
    all_goals injection hrun with hv1 hv2
    all_goals first
      | exact hv1.symm
      | (rw [← hv2] at h; cases h)
  · intro h
    rcases hrun : validateAccountInitializationInstructions chain tx k c with ⟨c2, r⟩
    rw [hrun] at h
    simp only at h
    simp only [validateAccountInitializationInstructions] at hrun
    repeat' split at hrun
    all_goals try (injection hrun with hv1 hv2; rw [← hv2] at h; exact Except.noConfusion h)
    rename_i hlen hscrut0 instr hget hprog hscrutA hscrutB ownerMeta mintMeta hk2 hk3 hex hins htr
    injection hrun with hv1 hv2
    exact ⟨instr, ownerMeta, mintMeta, by omega, hget, not_not.mp hprog, hk2, hk3,
      by simpa using hex, by simpa using hins, by simpa using htr, hv1.symm⟩

/-- C6 witness: with the derived account already on-chain the validator
fails with account already exists leaving the cache untouched, and on the
fresh chain the mark is written only after all checks pass. -/
theorem claim6_account_exists_no_mark_witness :
    validateAccountInitializationInstructions chainExistE txAcctE custodyK [] =
      ([], .error (JsError.error "account already exists")) ∧
    (∃ instr ownerMeta mintMeta,
      txAcctE.instructions.length = 2 ∧
      txAcctE.instructions.get? 1 = some instr ∧
      instr.programId = ataProgramId ∧
      instr.keys.get? 2 = some ownerMeta ∧
      instr.keys.get? 3 = some mintMeta ∧
      chainE.existingAccounts.contains (ataAddr mintMeta.pubkey ownerMeta.pubkey) = false ∧
      areInstructionsEqual
        (refAtaInstruction custodyK (ataAddr mintMeta.pubkey ownerMeta.pubkey)
          ownerMeta.pubkey mintMeta.pubkey) instr = true ∧
      truthy (Cache.get [] (acctInitKey txAcctE (ataAddr mintMeta.pubkey ownerMeta.pubkey))) = false ∧
      (validateAccountInitializationInstructions chainE txAcctE custodyK []).1 =
        Cache.set [] (acctInitKey txAcctE (ataAddr mintMeta.pubkey ownerMeta.pubkey)) (.b true)) := by
  constructor
  · exact (claim6_account_exists_no_mark chainExistE txAcctE custodyK []).1
      ataIxE ⟨2, false, false⟩ ⟨4, false, false⟩
      (by decide) (by decide) (by decide) (by decide) (by decide) (by decide)
  · exact (claim6_account_exists_no_mark chainE txAcctE custodyK []).2.2 (by decide)

/-- C7 witness: a transaction with no token-program instruction fails with
missing token instruction, and in the concrete transfer transaction the
first (only) token-program instruction is the one validated. -/
theorem claim7_missing_token_instruction_witness :
    validateTransfer chainE txCexW allowedE =
      .error (JsError.error "missing token instruction") ∧
    (findTokenInstruction txE = some transferIxE ∧
      validateTransfer chainE txE allowedE = validateTransferOnIx chainE txE allowedE transferIxE) := by
  constructor
  · exact (claim7_missing_token_instruction chainE txCexW allowedE).1.mp (by decide)
  · exact (claim7_missing_token_instruction chainE txE allowedE).2 [] transferIxE []
      (by decide) (by decide) (by decide)
